import Mathlib

/-!
Shallow embedding of the fbc_uploader resumable-upload core
(`backend/app/routers/uploads.py`, `backend/app/utils.py`,
`backend/app/postprocessing.py`) and proofs about it.

Modelling conventions:
* machine integers are `Nat` (offsets, lengths and byte counts are
  non-negative in the source and never overflow in practice);
* on-disk file contents are `List Nat` (byte values);
* JSON documents (record metadata, ffprobe output) are association lists
  of string keys and `JVal` values, in insertion order, mirroring Python
  dict semantics for lookup / in-place assignment;
* database commit semantics: an ORM record mutated in memory is persisted
  only at a `db.commit()`; raising an `HTTPException` before a commit rolls
  the in-memory change back (the session from `get_db` closes without
  committing), so the modelled state transition keeps the old record there.
-/

/-- JSON-like value stored in a record's `meta_data` document or produced by
the ffprobe parser: a string leaf or an object (ordered association list). -/
inductive JVal where
  | s (v : String)
  | o (fields : List (String × JVal))

/-- Python `dct[k]` lookup on an ordered dict modelled as an association
list: value at the first matching key, if any. -/
def jlookup (fs : List (String × JVal)) (k : String) : Option JVal :=
  (fs.find? (fun kv => kv.1 = k)).map (fun kv => kv.2)

/-- Python `dct[k] = v` on an ordered dict: replace the value at an existing
key in place, otherwise append the new pair at the end. -/
def jset (fs : List (String × JVal)) (k : String) (v : JVal) : List (String × JVal) :=
  if fs.any (fun kv => kv.1 = k) then
    fs.map (fun kv => if kv.1 = k then (k, v) else kv)
  else
    fs ++ [(k, v)]

/-- The `uploads` table row (`backend/app/models.py`, class `UploadRecord`),
restricted to the fields the upload state machine reads or writes.
Timestamps are abstract `Nat` instants supplied by the caller as `now`. -/
structure UploadRecord where
  public_id : String
  token_id : Nat
  mimetype : Option String
  meta_data : List (String × JVal)
  storage_path : String
  upload_length : Option Nat
  upload_offset : Nat
  status : String
  completed_at : Option Nat

/-- Source `backend/app/utils.py`, `is_multimedia`: a MIME type is
multimedia when it starts with `video/` or `audio/`. Python
`str.startswith` is modelled on the character list of the string. -/
def is_multimedia (mimetype : String) : Bool :=
  "video/".data.isPrefixOf mimetype.data || "audio/".data.isPrefixOf mimetype.data

/-- Python `pattern.split("/")[0]`: the characters before the first `/`
(the whole string when there is no `/`). -/
def splitHead (pat : String) : List Char :=
  pat.data.takeWhile (fun c => c ≠ '/')

/-- Source `backend/app/utils.py`, `mime_allowed`. `none` models Python
`None`; the guard `if not allowed or not filetype` is Python truthiness, so
an empty list and the empty string also pass everything. A pattern ending
in `/*` matches by prefix (`pattern.split("/")[0] + "/"`, compared with
`str.startswith`); any other pattern matches by string equality. The
Python string operations are modelled on character lists. -/
def mime_allowed (filetype : Option String) (allowed : Option (List String)) : Bool :=
  match allowed, filetype with
  | none, _ => true
  | some [], _ => true
  | _, none => true
  | some pats, some ft =>
    if ft.data.isEmpty then true
    else
      pats.any (fun pat =>
        if "/*".data.isSuffixOf pat.data then
          (splitHead pat ++ "/".data).isPrefixOf ft.data
        else
          ft = pat)

/-- Python `bytes.find(sub)` on byte lists: index of the first occurrence of
`pat` as a contiguous sublist, `none` when absent (Python's `-1`). -/
def findSub (pat : List Nat) : List Nat → Option Nat
  | [] => if pat.isEmpty then some 0 else none
  | d :: rest =>
    if pat.isPrefixOf (d :: rest) then some 0
    else (findSub pat rest).map (fun i => i + 1)

/-- Byte string `b"moov"` (the MP4 index atom tag). -/
def moovBytes : List Nat := [109, 111, 111, 118]

/-- Byte string `b"mdat"` (the MP4 media-data atom tag). -/
def mdatBytes : List Nat := [109, 100, 97, 116]

/-- Source `backend/app/utils.py`, `_needs_faststart`: read the first
`scan_bytes` bytes, locate `b"moov"` and `b"mdat"`; missing `moov` means
rewrite is needed, missing `mdat` means it is not, otherwise compare the
two first-occurrence indices. The file read is modelled by passing the
file's bytes `data` directly. -/
def needs_faststart (data : List Nat) (scan_bytes : Nat) : Bool :=
  let window := data.take scan_bytes
  let moov := findSub moovBytes window
  let mdat := findSub mdatBytes window
  match moov with
  | none => true
  | some m =>
    match mdat with
    | none => false
    | some k => decide (m > k)

/-- Default scan window of `_needs_faststart`: 8 MiB. -/
def defaultScanBytes : Nat := 8 * 1024 * 1024

/-- System state touched by a `tus_patch` / delete / cancel request: the
committed database row for the upload (`none` once deleted), the bytes of
the file at its `storage_path` (`none` when no file exists), and the
processing queue contents (`none` models `get_processing_queue` returning
`None`, as in tests without an app-state queue). -/
structure SysState where
  record : Option UploadRecord
  file : Option (List Nat)
  queue : Option (List String)

/-- Wire-level outcome of a TUS request: an HTTP error status, or a 204
No-Content success carrying the `Upload-Offset` header and, when the
handler reaches its final response, the `Upload-Length` header. -/
inductive TusResponse where
  | err (code : Nat)
  | noContent (offset : Nat) (length : Option Nat)

/-- Request environment for one `tus_patch` call. `body` is the byte
sequence actually received before any client disconnect (the source accepts
a partial body: `ClientDisconnect` is swallowed and `bytes_written` is
whatever arrived). `sniff` models `detect_mimetype` as a function of the
file bytes, `none` modelling an exception from libmagic. `allowedMime` is
the `allowed_mime` column of the upload's token, which is assumed valid:
`_ensure_token` already succeeded, so the re-fetch of the same token row
inside the completion branch cannot miss. -/
structure PatchEnv where
  claimedOffset : Nat
  contentLength : Option Nat
  contentType : String
  body : List Nat
  maxChunkBytes : Nat
  sniff : List Nat → Option String
  allowedMime : Option (List String)
  now : Nat

/-- Guard `if content_length and content_length > settings.max_chunk_bytes`
from `tus_patch`: Python truthiness makes `None` (and `0`) skip the check;
`0 > max` is false anyway, so absence is the only special case. -/
def chunk_too_large (contentLength : Option Nat) (maxChunkBytes : Nat) : Bool :=
  match contentLength with
  | none => false
  | some c => decide (c > maxChunkBytes)

/-- Result of a `tus_patch` call: the committed post-state and the HTTP
response. -/
structure PatchResult where
  state : SysState
  response : TusResponse

/-- Source `backend/app/routers/uploads.py`, `tus_patch`, transcribed in
source order. Error paths before any `db.commit()` leave the committed
record as it was (the uncommitted ORM mutation is rolled back when the
session closes), but bytes already appended to the file stay on disk.
The `mkdir`/`open("ab")` pair materialises the file even for an empty
body. Enqueueing happens only when a processing queue is present. -/
def tus_patch (st : SysState) (env : PatchEnv) : PatchResult :=
  if env.contentType ≠ "application/offset+octet-stream" then
    ⟨st, .err 415⟩
  else if chunk_too_large env.contentLength env.maxChunkBytes then
    ⟨st, .err 413⟩
  else
    match st.record with
    | none => ⟨st, .err 404⟩
    | some record =>
      match record.upload_length with
      | none => ⟨st, .err 409⟩
      | some len =>
        if record.upload_offset ≠ env.claimedOffset then
          ⟨st, .err 409⟩
        else if record.status = "completed" then
          ⟨st, .noContent record.upload_offset none⟩
        else
          let newBytes := st.file.getD [] ++ env.body
          let fileAfter : Option (List Nat) := some newBytes
          if env.body.length > 0 then
            let newOffset := record.upload_offset + env.body.length
            if newOffset > len then
              ⟨⟨st.record, fileAfter, st.queue⟩, .err 413⟩
            else if newOffset = len then
              match env.sniff newBytes with
              | none => ⟨⟨st.record, fileAfter, st.queue⟩, .err 500⟩
              | some actual =>
                if ¬ mime_allowed (some actual) env.allowedMime then
                  ⟨⟨none, none, st.queue⟩, .err 415⟩
                else if is_multimedia actual then
                  let record2 := { record with
                    upload_offset := newOffset
                    mimetype := some actual
                    status := "postprocessing" }
                  ⟨⟨some record2, fileAfter, st.queue.map (fun q => q ++ [record.public_id])⟩,
                    .noContent newOffset (some len)⟩
                else
                  let record2 := { record with
                    upload_offset := newOffset
                    mimetype := some actual
                    status := "completed"
                    completed_at := some env.now }
                  ⟨⟨some record2, fileAfter, st.queue⟩, .noContent newOffset (some len)⟩
            else
              let record2 := { record with
                upload_offset := newOffset
                status := "in_progress" }
              ⟨⟨some record2, fileAfter, st.queue⟩, .noContent newOffset (some len)⟩
          else
            ⟨⟨st.record, fileAfter, st.queue⟩, .noContent record.upload_offset (some len)⟩

/-- Source `backend/app/routers/uploads.py`, `tus_delete`: fetch the record
(404 when absent), best-effort unlink of the file, delete the record,
commit, 204. There is no status check: completed uploads are deleted too.
The token validation is assumed to succeed, as for `tus_patch`. -/
def tus_delete (record : Option UploadRecord) (file : Option (List Nat)) :
    (Option UploadRecord × Option (List Nat)) × TusResponse :=
  match record with
  | none => ((record, file), .err 404)
  | some _ => ((none, none), .noContent 0 none)

/-- Source `backend/app/routers/uploads.py`, `cancel_upload`:
404 when the record is absent, 403 when the upload belongs to a different
token, 400 when the record is already `completed`; otherwise best-effort
unlink, record deletion, quota slot restored, and a 200 JSON body (modelled
as `.noContent` with the current offset, the body content being out of
scope). `tokenMatches` models `record.token_id == token_row.id`. -/
def cancel_upload (record : Option UploadRecord) (file : Option (List Nat))
    (tokenMatches : Bool) :
    (Option UploadRecord × Option (List Nat)) × TusResponse :=
  match record with
  | none => ((record, file), .err 404)
  | some r =>
    if ¬ tokenMatches then ((record, file), .err 403)
    else if r.status = "completed" then ((record, file), .err 400)
    else ((none, none), .noContent r.upload_offset none)

/-- Source `backend/app/utils.py`, `extract_ffprobe_metadata`, with the
subprocess abstracted: `ok` is true when ffprobe ran with return code 0 and
its stdout parsed as JSON (any failure there returns `None`); `parsed` is
the parsed top-level object. Faithful to the source guard
`if dct and "format" in dct and "filename" in dct.get("format")`:
an empty document is falsy and skips the strip, the strip fires only when
the `format` entry is an object holding a `filename` key, and
`dct["format"].pop("filename", None)` drops that key in place. -/
def extract_ffprobe_metadata (ok : Bool) (parsed : List (String × JVal)) :
    Option (List (String × JVal)) :=
  if ¬ ok then none
  else if parsed.isEmpty then some parsed
  else
    match jlookup parsed "format" with
    | some (JVal.o fmt) =>
      if fmt.any (fun kv => kv.1 = "filename") then
        some (jset parsed "format" (JVal.o (fmt.filter (fun kv => kv.1 ≠ "filename"))))
      else some parsed
    | _ => some parsed

/-- Environment of one `process_upload` run: whether the file at
`storage_path` exists, the outcome of `ensure_faststart_mp4` (`Except.error`
models a raised exception, `Except.ok b` its `modified` flag), and the
ffprobe subprocess outcome feeding `extract_ffprobe_metadata`. -/
structure PPEnv where
  fileExists : Bool
  faststartResult : Except String Bool
  probeOk : Bool
  probeParsed : List (String × JVal)

/-- Source `backend/app/postprocessing.py`, `process_upload`. An empty
`storage_path` or a missing file marks the record `failed` with an `error`
entry in `meta_data`. For a multimedia record, the faststart step runs
inside its own `try/except Exception`, so its outcome (`env.faststartResult`)
is only logged and never influences the rest; a successful probe merges the
stripped ffprobe document under `meta_data["ffprobe"]`. Finally the record
is marked `completed` with `completed_at = now`. The returned `Bool` is the
function's success flag. -/
def process_upload (r : UploadRecord) (env : PPEnv) (now : Nat) :
    UploadRecord × Bool :=
  if r.storage_path = "" then
    ({ r with
        status := "failed"
        meta_data := jset r.meta_data "error" (JVal.s "No storage path") }, false)
  else if ¬ env.fileExists then
    ({ r with
        status := "failed"
        meta_data := jset r.meta_data "error" (JVal.s "File not found") }, false)
  else
    let r1 :=
      if (match r.mimetype with
          | some m => is_multimedia m
          | none => false) then
        match extract_ffprobe_metadata env.probeOk env.probeParsed with
        | some d => { r with meta_data := jset r.meta_data "ffprobe" (JVal.o d) }
        | none => r
      else r
    ({ r1 with status := "completed", completed_at := some now }, true)

/-- Occurrence predicate for the faststart claim: `pat` occurs in `d` as a
contiguous block starting at index `i`. -/
def occursAt (pat d : List Nat) (i : Nat) : Prop := pat <+: d.drop i

/-- Tiny MP4-like layout whose `mdat` marker precedes its `moov` marker. -/
def mdatFirstBytes : List Nat := [0, 0, 0, 16] ++ mdatBytes ++ [1, 2, 3, 4] ++ moovBytes

/-- The same bytes with the two markers swapped: `moov` precedes `mdat`. -/
def moovFirstBytes : List Nat := [0, 0, 0, 16] ++ moovBytes ++ [1, 2, 3, 4] ++ mdatBytes

theorem findSub_eq_none_iff (pat : List Nat) (hp : pat ≠ []) (d : List Nat) :
    findSub pat d = none ↔ ∀ i, ¬ occursAt pat d i := by
  induction d with
  | nil => simp [findSub, hp, occursAt]
  | cons x rest ih =>
    by_cases h : pat.isPrefixOf (x :: rest) = true
    · have h0 : occursAt pat (x :: rest) 0 := by
        simpa [occursAt] using List.isPrefixOf_iff_prefix.mp h
      simp only [findSub, h, if_true]
      constructor
      · intro he; exact absurd he (by simp)
      · intro hall; exact absurd h0 (hall 0)
    · have hnp : ¬ pat <+: (x :: rest) := fun hc =>
        h (List.isPrefixOf_iff_prefix.mpr hc)
      simp only [findSub, h, if_false, Bool.false_eq_true]
      rw [Option.map_eq_none', ih]
      constructor
      · intro hall i
        cases i with
        | zero => simpa [occursAt] using hnp
        | succ j => simpa [occursAt, List.drop_succ_cons] using hall j
      · intro hall j
        simpa [occursAt, List.drop_succ_cons] using hall (j + 1)

theorem findSub_eq_some_iff (pat : List Nat) (hp : pat ≠ []) (d : List Nat) (j : Nat) :
    findSub pat d = some j ↔
      (occursAt pat d j ∧ ∀ i < j, ¬ occursAt pat d i) := by
  induction d generalizing j with
  | nil => simp [findSub, hp, occursAt]
  | cons x rest ih =>
    by_cases h : pat.isPrefixOf (x :: rest) = true
    · have h0 : occursAt pat (x :: rest) 0 := by
        simpa [occursAt] using List.isPrefixOf_iff_prefix.mp h
      simp only [findSub, h, if_true]
      constructor
      · intro he
        obtain rfl : j = 0 := by simpa using he.symm
        exact ⟨h0, fun i hi => absurd hi (Nat.not_lt_zero i)⟩
      · rintro ⟨hocc, hmin⟩
        by_cases hj : j = 0
        · simp [hj]
        · exact absurd h0 (hmin 0 (Nat.pos_of_ne_zero hj))
    · have hnp : ¬ pat <+: (x :: rest) := fun hc =>
        h (List.isPrefixOf_iff_prefix.mpr hc)
      simp only [findSub, h, if_false, Bool.false_eq_true]
      cases j with
      | zero =>
        constructor
        · intro hm
          rcases Option.map_eq_some'.mp hm with ⟨a, _, hfa⟩
          omega
        · rintro ⟨hocc, _⟩
          exact absurd hocc (by simpa [occursAt] using hnp)
      | succ j' =>
        have hstep : ((findSub pat rest).map (fun i => i + 1) = some (j' + 1)) ↔
            findSub pat rest = some j' := by
          rcases hfs : findSub pat rest with _ | a <;> simp [hfs]
        rw [hstep, ih]
        constructor
        · rintro ⟨hocc, hmin⟩
          refine ⟨by simpa [occursAt, List.drop_succ_cons] using hocc, fun i hi => ?_⟩
          cases i with
          | zero => simpa [occursAt] using hnp
          | succ i' =>
            have := hmin i' (by omega)
            simpa [occursAt, List.drop_succ_cons] using this
        · rintro ⟨hocc, hmin⟩
          refine ⟨by simpa [occursAt, List.drop_succ_cons] using hocc, fun i hi hc => ?_⟩
          exact hmin (i + 1) (by omega)
            (by simpa [occursAt, List.drop_succ_cons] using hc)

/-- Faststart predicate written the way the claim states it: within the
scanned prefix, the index marker `moov` is absent, or the first occurrence
of `moov` comes strictly after the first occurrence of the data marker
`mdat`. -/
def faststart_spec (data : List Nat) (scan : Nat) : Prop :=
  (∀ i, ¬ occursAt moovBytes (data.take scan) i) ∨
  (∃ m k,
    (occursAt moovBytes (data.take scan) m ∧ ∀ i < m, ¬ occursAt moovBytes (data.take scan) i) ∧
    (occursAt mdatBytes (data.take scan) k ∧ ∀ i < k, ¬ occursAt mdatBytes (data.take scan) i) ∧
    k < m)

/-- C5: the faststart check on the scanned prefix reports "needs rewrite"
exactly when the index marker `moov` is absent from the prefix or its first
occurrence comes after the first occurrence of the data marker `mdat`; in
particular, bytes with `moov` after `mdat` need rewrite within the default
8 MiB window, and the same bytes with the markers swapped do not. -/
theorem faststart_needs_rewrite_characterisation :
    (∀ data scan, needs_faststart data scan = true ↔ faststart_spec data scan)
    ∧ needs_faststart mdatFirstBytes defaultScanBytes = true
    ∧ needs_faststart moovFirstBytes defaultScanBytes = false := by
  refine ⟨?_, by decide, by decide⟩
  intro data scan
  have hmoov : moovBytes ≠ [] := by simp [moovBytes]
  have hmdat : mdatBytes ≠ [] := by simp [mdatBytes]
  rcases hm : findSub moovBytes (data.take scan) with _ | m
  · simp only [needs_faststart, faststart_spec, hm]
    constructor
    · intro _
      exact Or.inl ((findSub_eq_none_iff _ hmoov _).mp hm)
    · intro _; trivial
  · rcases hd : findSub mdatBytes (data.take scan) with _ | k
    · simp only [needs_faststart, faststart_spec, hm, hd]
      constructor
      · intro hfalse; exact absurd hfalse (by simp)
      · rintro (habs | ⟨m', k', _, ⟨hocck, _⟩, _⟩)
        · have hmp := (findSub_eq_some_iff _ hmoov _ _).mp hm
          exact absurd hmp.1 (habs m)
        · have hnone := (findSub_eq_none_iff _ hmdat _).mp hd
          exact absurd hocck (hnone k')
    · simp only [needs_faststart, faststart_spec, hm, hd, decide_eq_true_eq]
      have hmprop := (findSub_eq_some_iff _ hmoov _ _).mp hm
      have hdprop := (findSub_eq_some_iff _ hmdat _ _).mp hd
      constructor
      · intro hgt
        exact Or.inr ⟨m, k, hmprop, hdprop, hgt⟩
      · rintro (habs | ⟨m', k', hm', hd', hlt⟩)
        · exact absurd hmprop.1 (habs m)
        · have hm2 : findSub moovBytes (data.take scan) = some m' :=
            (findSub_eq_some_iff _ hmoov _ _).mpr hm'

          have hd2 : findSub mdatBytes (data.take scan) = some k' :=
            (findSub_eq_some_iff _ hmdat _ _).mpr hd'
          rw [hm] at hm2
          rw [hd] at hd2
          have hmm : m = m' := by injection hm2
          have hkk : k = k' := by injection hd2
          omega

/-- Sample in-progress record used to instantiate witnesses. -/
def sampleRecord : UploadRecord :=
  { public_id := "pub1"
    token_id := 1
    mimetype := some "video/mp4"
    meta_data := []
    storage_path := "/data/tok/1.mp4"
    upload_length := some 5
    upload_offset := 3
    status := "in_progress"
    completed_at := none }

/-- Sample request environment used to instantiate witnesses. -/
def sampleEnv : PatchEnv :=
  { claimedOffset := 3
    contentLength := some 2
    contentType := "application/offset+octet-stream"
    body := [7, 8]
    maxChunkBytes := 1024
    sniff := fun _ => some "text/plain"
    allowedMime := none
    now := 99 }

/-- Sample system state holding `sampleRecord`, three bytes on disk and an
empty processing queue. -/
def sampleState : SysState :=
  { record := some sampleRecord
    file := some [1, 2, 3]
    queue := some [] }

/-- C1: a chunk append whose claimed offset differs from the recorded
offset fails with 409 and mutates nothing: the committed record, the
on-disk bytes and the queue are all unchanged. -/
theorem tus_patch_offset_conflict (st : SysState) (env : PatchEnv)
    (r : UploadRecord) (len : Nat)
    (hct : env.contentType = "application/offset+octet-stream")
    (hcl : chunk_too_large env.contentLength env.maxChunkBytes = false)
    (hrec : st.record = some r)
    (hlen : r.upload_length = some len)
    (hoff : r.upload_offset ≠ env.claimedOffset) :
    tus_patch st env = ⟨st, .err 409⟩ := by
  simp [tus_patch, hct, hcl, hrec, hlen, hoff]

/-- Witness for C1 at a concrete state: claimed offset 7 against recorded
offset 3 yields a 409 and an unchanged state. -/
theorem tus_patch_offset_conflict_witness :
    tus_patch sampleState { sampleEnv with claimedOffset := 7 } =
      ⟨sampleState, .err 409⟩ :=
  tus_patch_offset_conflict _ _ sampleRecord 5 rfl (by decide) rfl rfl (by decide)

/-- C6: a chunk append against a record already in `completed` status is a
no-op: nothing in the state changes and the current offset is returned. -/
theorem tus_patch_completed_noop (st : SysState) (env : PatchEnv)
    (r : UploadRecord) (len : Nat)
    (hct : env.contentType = "application/offset+octet-stream")
    (hcl : chunk_too_large env.contentLength env.maxChunkBytes = false)
    (hrec : st.record = some r)
    (hlen : r.upload_length = some len)
    (hoff : r.upload_offset = env.claimedOffset)
    (hst : r.status = "completed") :
    tus_patch st env = ⟨st, .noContent r.upload_offset none⟩ := by
  simp [tus_patch, hct, hcl, hrec, hlen, hoff, hst]

/-- Witness for C6 at a concrete state: re-delivery to a completed record
returns the recorded offset 5 and changes nothing. -/
theorem tus_patch_completed_noop_witness :
    tus_patch
      { sampleState with
          record := some { sampleRecord with status := "completed", upload_offset := 5 } }
      { sampleEnv with claimedOffset := 5 } =
      ⟨{ sampleState with
          record := some { sampleRecord with status := "completed", upload_offset := 5 } },
        .noContent 5 none⟩ :=
  tus_patch_completed_noop _ _
    { sampleRecord with status := "completed", upload_offset := 5 } 5
    rfl (by decide) rfl rfl rfl rfl

/-- C10: a chunk append that passes every precondition but receives zero
body bytes leaves the committed record (and the queue) untouched and
returns 204 with the current offset and the declared length. -/
theorem tus_patch_empty_body (st : SysState) (env : PatchEnv)
    (r : UploadRecord) (len : Nat)
    (hct : env.contentType = "application/offset+octet-stream")
    (hcl : chunk_too_large env.contentLength env.maxChunkBytes = false)
    (hrec : st.record = some r)
    (hlen : r.upload_length = some len)
    (hoff : r.upload_offset = env.claimedOffset)
    (hst : r.status ≠ "completed")
    (hbody : env.body = []) :
    tus_patch st env =
      ⟨⟨some r, some (st.file.getD []), st.queue⟩, .noContent r.upload_offset (some len)⟩ := by
  simp [tus_patch, hct, hcl, hrec, hlen, hoff, hst, hbody]

/-- Witness for C10 at a concrete state: an empty body leaves the record at
offset 3 in `in_progress` and answers with offset 3 and length 5. -/
theorem tus_patch_empty_body_witness :
    tus_patch sampleState { sampleEnv with body := [], contentLength := none } =
      ⟨⟨some sampleRecord, some [1, 2, 3], some []⟩, .noContent 3 (some 5)⟩ :=
  tus_patch_empty_body _ _ sampleRecord 5 rfl (by decide) rfl rfl rfl (by decide) rfl

/-- C3: a chunk whose bytes would push the offset strictly past the
declared length fails with 413 and leaves the committed record unchanged;
more generally, whatever a `tus_patch` call does, a committed record that
satisfied `upload_offset ≤ upload_length` still does (offsets are `Nat`,
so `0 ≤ offset` is inherent in the model). -/
theorem tus_patch_offset_le_declared_length (st : SysState) (env : PatchEnv)
    (r : UploadRecord) (len : Nat)
    (hrec : st.record = some r)
    (hlen : r.upload_length = some len)
    (hinv : r.upload_offset ≤ len) :
    (env.contentType = "application/offset+octet-stream" →
      chunk_too_large env.contentLength env.maxChunkBytes = false →
      r.upload_offset = env.claimedOffset →
      r.status ≠ "completed" →
      0 < env.body.length →
      len < r.upload_offset + env.body.length →
      (tus_patch st env).response = TusResponse.err 413 ∧
        (tus_patch st env).state.record = some r)
    ∧ (∀ r', (tus_patch st env).state.record = some r' →
        r'.upload_offset ≤ len ∧ r'.upload_length = some len) := by
  constructor
  · intro hct hcl hoff hst hpos hover
    have hgt : len < env.claimedOffset + env.body.length := by omega
    simp [tus_patch, hct, hcl, hrec, hlen, hoff, hst, hpos, hgt]
  · intro r' hr'
    simp only [tus_patch, hrec, hlen] at hr'
    repeat' split at hr'
    all_goals try simp [hrec] at hr'
    all_goals try subst hr'
    all_goals refine ⟨?_, ?_⟩
    all_goals simp_all

/-- Witness for C3 at a concrete state: 4 body bytes at offset 3 against a
declared length of 5 yield a 413 and leave the committed record untouched. -/
theorem tus_patch_offset_le_declared_length_witness :
    (tus_patch sampleState { sampleEnv with body := [9, 9, 9, 9], contentLength := some 4 }).response =
        TusResponse.err 413 ∧
      (tus_patch sampleState { sampleEnv with body := [9, 9, 9, 9], contentLength := some 4 }).state.record =
        some sampleRecord :=
  (tus_patch_offset_le_declared_length sampleState
      { sampleEnv with body := [9, 9, 9, 9], contentLength := some 4 }
      sampleRecord 5 rfl rfl (by decide)).1
    rfl (by decide) rfl (by decide) (by decide) (by decide)

/-- C4: a chunk append that brings the offset exactly to the declared
length, with a sniffed type that passes the allow-list, routes on the
multimedia predicate: `video/*` or `audio/*` commits `postprocessing` and
appends the record's id to the queue exactly once; any other type commits
`completed` with `completed_at = now` and leaves the queue untouched. -/
theorem tus_patch_completion_routing (st : SysState) (env : PatchEnv)
    (r : UploadRecord) (len : Nat) (q : List String) (actual : String)
    (hct : env.contentType = "application/offset+octet-stream")
    (hcl : chunk_too_large env.contentLength env.maxChunkBytes = false)
    (hrec : st.record = some r)
    (hlen : r.upload_length = some len)
    (hoff : r.upload_offset = env.claimedOffset)
    (hst : r.status ≠ "completed")
    (hq : st.queue = some q)
    (hpos : 0 < env.body.length)
    (hfin : r.upload_offset + env.body.length = len)
    (hsniff : env.sniff (st.file.getD [] ++ env.body) = some actual)
    (hallow : mime_allowed (some actual) env.allowedMime = true) :
    (is_multimedia actual = true →
      (tus_patch st env).state.record =
        some { r with
                upload_offset := len
                mimetype := some actual
                status := "postprocessing" } ∧
      (tus_patch st env).state.queue = some (q ++ [r.public_id]))
    ∧ (is_multimedia actual = false →
      (tus_patch st env).state.record =
        some { r with
                upload_offset := len
                mimetype := some actual
                status := "completed"
                completed_at := some env.now } ∧
      (tus_patch st env).state.queue = some q) := by
  have hfin2 : env.claimedOffset + env.body.length = len := by omega
  constructor
  · intro him
    simp [tus_patch, hct, hcl, hrec, hlen, hoff, hst, hq, hpos, hfin2, hsniff, hallow, him]
  · intro him
    simp [tus_patch, hct, hcl, hrec, hlen, hoff, hst, hq, hpos, hfin2, hsniff, hallow, him]

/-- Witness for C4 at concrete states: a final chunk sniffed as `video/mp4`
commits `postprocessing` and enqueues `pub1` once; the same final chunk
sniffed as `text/plain` commits `completed` with `completed_at = 99` and
leaves the queue empty. -/
theorem tus_patch_completion_routing_witness :
    ((tus_patch sampleState { sampleEnv with sniff := fun _ => some "video/mp4" }).state.record =
        some { sampleRecord with
                upload_offset := 5
                mimetype := some "video/mp4"
                status := "postprocessing" } ∧
      (tus_patch sampleState { sampleEnv with sniff := fun _ => some "video/mp4" }).state.queue =
        some ["pub1"]) ∧
    ((tus_patch sampleState sampleEnv).state.record =
        some { sampleRecord with
                upload_offset := 5
                mimetype := some "text/plain"
                status := "completed"
                completed_at := some 99 } ∧
      (tus_patch sampleState sampleEnv).state.queue = some []) :=
  ⟨(tus_patch_completion_routing sampleState
      { sampleEnv with sniff := fun _ => some "video/mp4" }
      sampleRecord 5 [] "video/mp4"
      rfl (by decide) rfl rfl rfl (by decide) rfl (by decide) (by decide) rfl (by decide)).1
        (by decide),
   (tus_patch_completion_routing sampleState sampleEnv
      sampleRecord 5 [] "text/plain"
      rfl (by decide) rfl rfl rfl (by decide) rfl (by decide) (by decide) rfl (by decide)).2
        (by decide)⟩

/-- C9: the allow-list check permits everything when the allow-list is
`None` or empty, and permits every allow-list when the declared type is
`None`; consequently a `tus_patch` call under a token with no allow-list
never reaches the type-mismatch deletion path — the committed record
survives every branch. -/
theorem mime_allowed_absent_allows_all :
    (∀ ft, mime_allowed ft none = true)
    ∧ (∀ ft, mime_allowed ft (some []) = true)
    ∧ (∀ al, mime_allowed none al = true)
    ∧ (∀ st env r, st.record = some r → env.allowedMime = none →
        ((tus_patch st env).state.record).isSome = true) := by
  refine ⟨fun ft => by cases ft <;> rfl, fun ft => by cases ft <;> rfl,
    fun al => ?_, fun st env r hrec hal => ?_⟩
  · rcases al with _ | al
    · rfl
    · rcases al with _ | ⟨p, ps⟩ <;> rfl
  · simp only [tus_patch, hrec, hal, mime_allowed]
    repeat' split
    all_goals simp_all

/-- Witness for C9 at concrete inputs, including a full `tus_patch` call
under a token without an allow-list. -/
theorem mime_allowed_absent_allows_all_witness :
    mime_allowed (some "application/pdf") none = true ∧
    mime_allowed (some "video/mp4") (some []) = true ∧
    mime_allowed none (some ["video/*"]) = true ∧
    ((tus_patch sampleState sampleEnv).state.record).isSome = true :=
  ⟨mime_allowed_absent_allows_all.1 (some "application/pdf"),
   mime_allowed_absent_allows_all.2.1 (some "video/mp4"),
   mime_allowed_absent_allows_all.2.2.1 (some ["video/*"]),
   mime_allowed_absent_allows_all.2.2.2 sampleState sampleEnv sampleRecord rfl rfl⟩

/-- A completed upload record, used to exercise the delete/cancel paths. -/
def completedRecord : UploadRecord :=
  { sampleRecord with
      status := "completed"
      upload_offset := 5
      completed_at := some 42 }

/-- Counterexample to C2 as stated: the TUS DELETE endpoint, applied to a
record whose status is `completed`, answers 204 (not an error) and deletes
both the record and the file. -/
theorem tus_delete_completed_counterexample :
    completedRecord.status = "completed" ∧
    (tus_delete (some completedRecord) (some [1, 2, 3])).2 = TusResponse.noContent 0 none ∧
    (tus_delete (some completedRecord) (some [1, 2, 3])).1 = (none, none) :=
  ⟨rfl, rfl, rfl⟩

/-- C2 amended: only the cancel endpoint refuses completed uploads — it
returns 400 and deletes nothing when `status = completed`, and otherwise
deletes the file and the record; the TUS DELETE endpoint deletes the file
(missing tolerated, the state's `file` simply becomes `none`) and the
record unconditionally and returns 204, whatever the status. -/
theorem delete_and_cancel_behaviour :
    (∀ rec file, tus_delete (some rec) file = ((none, none), TusResponse.noContent 0 none))
    ∧ (∀ rec file, rec.status = "completed" →
        cancel_upload (some rec) file true = ((some rec, file), TusResponse.err 400))
    ∧ (∀ rec file, rec.status ≠ "completed" →
        cancel_upload (some rec) file true =
          ((none, none), TusResponse.noContent rec.upload_offset none)) := by
  refine ⟨fun rec file => rfl, fun rec file h => ?_, fun rec file h => ?_⟩
  · simp [cancel_upload, h]
  · simp [cancel_upload, h]

/-- Witness for C2's amended statement at concrete records: cancel refuses
the completed record with 400, cancel deletes the in-progress record, and
TUS DELETE removes the in-progress record with 204. -/
theorem delete_and_cancel_behaviour_witness :
    cancel_upload (some completedRecord) (some [1, 2, 3]) true =
      ((some completedRecord, some [1, 2, 3]), TusResponse.err 400) ∧
    cancel_upload (some sampleRecord) (some [1, 2, 3]) true =
      ((none, none), TusResponse.noContent 3 none) ∧
    tus_delete (some sampleRecord) (some [1, 2, 3]) =
      ((none, none), TusResponse.noContent 0 none) :=
  ⟨delete_and_cancel_behaviour.2.1 completedRecord (some [1, 2, 3]) rfl,
   delete_and_cancel_behaviour.2.2 sampleRecord (some [1, 2, 3]) (by decide),
   delete_and_cancel_behaviour.1 sampleRecord (some [1, 2, 3])⟩

theorem find?_map_replace (k : String) (v : JVal) :
    ∀ fs : List (String × JVal), fs.any (fun kv => kv.1 = k) = true →
      (fs.map (fun kv => if kv.1 = k then (k, v) else kv)).find? (fun kv => kv.1 = k) =
        some (k, v)
  | [], h => by simp at h
  | kv :: rest, h => by
    by_cases hk : kv.1 = k
    · simp [hk]
    · have hrest : rest.any (fun kv => kv.1 = k) = true := by
        simpa [List.any_cons, hk] using h
      simpa [hk] using find?_map_replace k v rest hrest

theorem find?_append_absent (k : String) (v : JVal) :
    ∀ fs : List (String × JVal), fs.any (fun kv => kv.1 = k) = false →
      (fs ++ [(k, v)]).find? (fun kv => kv.1 = k) = some (k, v)
  | [], _ => by simp
  | kv :: rest, h => by
    have hk : ¬ kv.1 = k := by
      intro hc
      simp [List.any_cons, hc] at h
    have hrest : rest.any (fun kv => kv.1 = k) = false := by
      simpa [List.any_cons, hk] using h
    simpa [hk] using find?_append_absent k v rest hrest

/-- Looking up a key right after a Python-style dict assignment of that key
returns the assigned value. -/
theorem jlookup_jset_self (fs : List (String × JVal)) (k : String) (v : JVal) :
    jlookup (jset fs k v) k = some v := by
  unfold jlookup jset
  by_cases h : fs.any (fun kv => kv.1 = k) = true
  · rw [if_pos h, find?_map_replace k v fs h]
    rfl
  · rw [if_neg h, find?_append_absent k v fs
      (by simp only [Bool.not_eq_true] at h; exact h)]
    rfl

/-- C7: in a post-processing run over an existing file, the outcome of the
faststart step never influences the result — its exceptions are caught
inside the routine — and the record still reaches `completed`. -/
theorem process_upload_faststart_failure_tolerated (r : UploadRecord) (env : PPEnv) (now : Nat)
    (hpath : r.storage_path ≠ "") (hfile : env.fileExists = true) :
    (process_upload r env now).1.status = "completed"
    ∧ (process_upload r env now).2 = true
    ∧ ∀ x, process_upload r { env with faststartResult := x } now =
        process_upload r env now := by
  refine ⟨?_, ?_, fun x => ?_⟩ <;> simp [process_upload, hpath, hfile]

/-- Record in `postprocessing` status, as handed to the worker. -/
def ppRecord : UploadRecord :=
  { sampleRecord with
      status := "postprocessing"
      upload_offset := 5
      mimetype := some "video/mp4" }

/-- A parsed ffprobe document whose format section echoes the absolute
on-disk path in its `filename` entry. -/
def ppProbeParsed : List (String × JVal) :=
  [("format", JVal.o [("filename", JVal.s "/data/tok/1.mp4"), ("duration", JVal.s "12.0")]),
   ("streams", JVal.o [])]

/-- Worker environment in which the faststart step raises but the probe
succeeds. -/
def ppEnvFailFaststart : PPEnv :=
  { fileExists := true
    faststartResult := Except.error "ffmpeg faststart failed"
    probeOk := true
    probeParsed := ppProbeParsed }

/-- Witness for C7 at a concrete record: despite the faststart exception
the record completes, and swapping the faststart outcome for a success
changes nothing. -/
theorem process_upload_faststart_failure_tolerated_witness :
    (process_upload ppRecord ppEnvFailFaststart 7).1.status = "completed" ∧
    (process_upload ppRecord ppEnvFailFaststart 7).2 = true ∧
    process_upload ppRecord { ppEnvFailFaststart with faststartResult := Except.ok true } 7 =
      process_upload ppRecord ppEnvFailFaststart 7 :=
  ⟨(process_upload_faststart_failure_tolerated ppRecord ppEnvFailFaststart 7
      (by decide) rfl).1,
   (process_upload_faststart_failure_tolerated ppRecord ppEnvFailFaststart 7
      (by decide) rfl).2.1,
   (process_upload_faststart_failure_tolerated ppRecord ppEnvFailFaststart 7
      (by decide) rfl).2.2 (Except.ok true)⟩

/-- Counterexample to C8 as stated: after a successful probe the merged
sub-document lives under the key `ffprobe`, not `probe` — looking up
`probe` in the committed metadata finds nothing even though the probe
output was merged. -/
theorem ffprobe_merge_key_counterexample :
    jlookup (process_upload ppRecord ppEnvFailFaststart 7).1.meta_data "probe" = none ∧
    (jlookup (process_upload ppRecord ppEnvFailFaststart 7).1.meta_data "ffprobe").isSome = true :=
  ⟨rfl, rfl⟩

/-- C8 amended: a successful probe during post-processing merges the
stripped prober output under `meta_data["ffprobe"]` (not `probe`), and the
stripping removes the format-level `filename` entry that echoes the
server's absolute file path, so the merged format object never carries a
`filename` entry. -/
theorem ffprobe_merge_strips_filename (r : UploadRecord) (env : PPEnv) (now : Nat)
    (hpath : r.storage_path ≠ "") (hfile : env.fileExists = true)
    (m : String) (hm : r.mimetype = some m) (hmm : is_multimedia m = true)
    (stripped : List (String × JVal))
    (hp : extract_ffprobe_metadata env.probeOk env.probeParsed = some stripped) :
    (process_upload r env now).1.meta_data = jset r.meta_data "ffprobe" (JVal.o stripped)
    ∧ ∀ fmtFields, jlookup stripped "format" = some (JVal.o fmtFields) →
        ∀ kv ∈ fmtFields, kv.1 ≠ "filename" := by
  constructor
  · simp [process_upload, hpath, hfile, hm, hmm, hp]
  · intro fmtFields hfmt kv hkv
    unfold extract_ffprobe_metadata at hp
    split at hp
    · exact absurd hp (by simp)
    · split at hp
      · rename_i hemp
        injection hp with hp'
        subst hp'
        rw [List.isEmpty_iff.mp hemp] at hfmt
        simp [jlookup] at hfmt
      · split at hp
        · split at hp
          · rename_i fmt hlook hany
            injection hp with hp'
            subst hp'
            rw [jlookup_jset_self] at hfmt
            injection hfmt with hfmt'
            injection hfmt' with hfmt''
            subst hfmt''
            have hmem := List.mem_filter.mp hkv
            simpa using hmem.2
          · rename_i fmt hlook hany
            injection hp with hp'
            subst hp'
            rw [hfmt] at hlook
            injection hlook with hlook'
            injection hlook' with hlook''
            subst hlook''
            intro hc
            exact hany (List.any_eq_true.mpr ⟨kv, hkv, by simpa using hc⟩)
        · rename_i hnomatch
          injection hp with hp'
          subst hp'
          exact absurd hfmt (by intro hc; exact (hnomatch fmtFields hc).elim)

/-- Witness for C8's amended statement at a concrete probe document: the
filename entry echoing `/data/tok/1.mp4` is stripped and the rest is merged
under `ffprobe`. -/
theorem ffprobe_merge_strips_filename_witness :
    (process_upload ppRecord ppEnvFailFaststart 7).1.meta_data =
      jset ppRecord.meta_data "ffprobe"
        (JVal.o [("format", JVal.o [("duration", JVal.s "12.0")]), ("streams", JVal.o [])]) ∧
    (∀ fmtFields,
        jlookup [("format", JVal.o [("duration", JVal.s "12.0")]), ("streams", JVal.o [])]
          "format" = some (JVal.o fmtFields) →
        ∀ kv ∈ fmtFields, kv.1 ≠ "filename") :=
  ffprobe_merge_strips_filename ppRecord ppEnvFailFaststart 7 (by decide) rfl
    "video/mp4" rfl (by decide)
    [("format", JVal.o [("duration", JVal.s "12.0")]), ("streams", JVal.o [])] rfl
